import Mathlib

/-!
Verification of the construction-site manager application (src/main.py).

The application keeps three CSV-backed ledgers (attendance, expenses, site
diary) and a dashboard that recomputes aggregate metrics on every load.  We
embed the computational core shallowly: numeric cells are rationals, each
ledger is a list of typed rows, and the backing store is an untyped table of
cells so that the load-time numeric coercion can be stated faithfully.
-/

namespace SiteManager

/-- One row of the Attendance Ledger (`labor.csv`), with the column set the
application writes: Date, Worker, Role, Wage, Attendance, Paid_Today, Notes. -/
structure AttendanceRow where
  date : String
  worker : String
  role : String
  wage : ℚ
  attendance : ℚ
  paid_today : ℚ
  notes : String
deriving DecidableEq, Repr

/-- An attendance row together with the derived `Earned` column that the
Dashboard view adds in memory. -/
structure EarnedRow extends AttendanceRow where
  earned : ℚ
deriving DecidableEq, Repr

/-- One row of the Expense Ledger (`expenses.csv`): Date, Item, Category,
Cost, Paid_To. -/
structure ExpenseRow where
  date : String
  item : String
  category : String
  cost : ℚ
  paid_to : String
deriving DecidableEq, Repr

/-- Dashboard, line 49: `df_labor["Earned"] = df_labor["Wage"] * df_labor["Attendance"]`. -/
def computeEarned (t : List AttendanceRow) : List EarnedRow :=
  t.map (fun r => ⟨r, r.wage * r.attendance⟩)

/-- Dashboard, line 50: `total_labor_paid = df_labor["Paid_Today"].sum()`. -/
def totalPaid (t : List AttendanceRow) : ℚ :=
  (t.map (fun r => r.paid_today)).sum

/-- Dashboard, line 51: `total_labor_earned = df_labor["Earned"].sum()`. -/
def totalEarned (t : List EarnedRow) : ℚ :=
  (t.map (fun r => r.earned)).sum

/-- Dashboard, line 52: `labor_due = total_labor_earned - total_labor_paid`,
where the `Earned` column was just recomputed on the loaded ledger. -/
def laborDue (t : List AttendanceRow) : ℚ :=
  totalEarned (computeEarned t) - totalPaid t

/-- Dashboard, line 54: `total_material = df_exp["Cost"].sum()`. -/
def totalMaterial (e : List ExpenseRow) : ℚ :=
  (e.map (fun r => r.cost)).sum

/-- Dashboard, line 55: `grand_total = total_material + total_labor_paid`. -/
def grandTotal (e : List ExpenseRow) (t : List AttendanceRow) : ℚ :=
  totalMaterial e + totalPaid t

/-- The distinct keys of a pandas `groupby`, in the sorted order the default
`sort=True` produces. -/
def sortedKeys (l : List String) : List String :=
  List.mergeSort l.dedup (fun a b => decide (a ≤ b))

/-- Sum of the `Earned` column over the rows of one worker, as in
`df_labor.groupby("Worker")[["Earned", "Paid_Today"]].sum()` (line 77). -/
def sumEarnedFor (t : List EarnedRow) (w : String) : ℚ :=
  ((t.filter (fun r => r.worker = w)).map (fun r => r.earned)).sum

/-- Sum of the `Paid_Today` column over the rows of one worker (line 77). -/
def sumPaidFor (t : List EarnedRow) (w : String) : ℚ :=
  ((t.filter (fun r => r.worker = w)).map (fun r => r.paid_today)).sum

/-- Dashboard, line 78: `Balance_Due = Earned - Paid_Today` on the per-worker
group sums. -/
def balanceDue (t : List EarnedRow) (w : String) : ℚ :=
  sumEarnedFor t w - sumPaidFor t w

/-- Dashboard, lines 77-80: group the attendance rows by `Worker`, sum
`Earned` and `Paid_Today`, set `Balance_Due` to their difference, keep the
workers with `Balance_Due > 10`, and sort by `Balance_Due` descending. -/
def pendingDuesByWorker (t : List EarnedRow) : List (String × ℚ) :=
  List.mergeSort
    (((sortedKeys (t.map (fun r => r.worker))).map
        (fun w => (w, balanceDue t w))).filter (fun p => decide ((10 : ℚ) < p.2)))
    (fun a b => decide (b.2 ≤ a.2))

/-- Sum of `Cost` over the expense rows of one category, as in
`df_exp.groupby("Category")["Cost"].sum()` (line 70). -/
def sumCostFor (e : List ExpenseRow) (c : String) : ℚ :=
  ((e.filter (fun r => r.category = c)).map (fun r => r.cost)).sum

/-- Dashboard, lines 70-71: group the expenses by `Category` summing `Cost`,
then append the synthetic row `['Labor Payments', total_labor_paid]` at the
end. -/
def spendByCategory (e : List ExpenseRow) (t : List AttendanceRow) : List (String × ℚ) :=
  ((sortedKeys (e.map (fun r => r.category))).map (fun c => (c, sumCostFor e c))) ++
    [("Labor Payments", totalPaid t)]

/-- Bulk Attendance submit handler, lines 98-105: one new row per selected
worker, sharing the date, wage and attendance code, with `Role = "Regular"`,
`Paid_Today = 0` and `Notes = "Bulk"`, appended to the ledger in order. -/
def bulkEntry (ledger : List AttendanceRow) (d : String) (selected : List String)
    (wage att : ℚ) : List AttendanceRow :=
  ledger ++ selected.map (fun w =>
    { date := d, worker := w, role := "Regular", wage := wage, attendance := att,
      paid_today := 0, notes := "Bulk" })

/-- Single Entry save handler, lines 133-141: an empty worker name is rejected
(`st.error`, nothing appended, flag `false`); otherwise exactly one row with
`Role = "Labor"` and `Notes = "Single"` is appended (flag `true`). -/
def singleEntry (ledger : List AttendanceRow) (d name : String) (wage att paid : ℚ) :
    List AttendanceRow × Bool :=
  if name = "" then (ledger, false)
  else
    (ledger ++
      [{ date := d, worker := name, role := "Labor", wage := wage,
         attendance := att, paid_today := paid, notes := "Single" }], true)

/-- A stored cell: either a number or an arbitrary string (a hand-edited or
corrupt value).  The CSV file is modelled at record granularity; quoting and
byte-level serialization are below the granularity of the claims. -/
inductive Cell where
  | num (q : ℚ)
  | str (s : String)
deriving DecidableEq, Repr

/-- An untyped table: a header and a list of rows of cells, as read from or
written to one CSV store. -/
structure Table where
  cols : List String
  rows : List (List Cell)
deriving DecidableEq, Repr

/-- Line 28 of `load_data`: the designated numeric columns. -/
def numeric_cols : List String := ["Wage", "Attendance", "Paid_Today", "Cost", "Earned"]

/-- A digit string read as a natural number; `none` on any non-digit. -/
def digitsToNat (cs : List Char) : Option ℕ :=
  cs.foldl
    (fun acc c =>
      acc.bind (fun a => if c.isDigit then some (a * 10 + (c.toNat - 48)) else none))
    (some 0)

/-- An unsigned decimal literal read as a rational: digits with an optional
single decimal point; at least one digit overall; anything else fails. -/
def parseUnsigned (cs : List Char) : Option ℚ :=
  match cs.splitOn '.' with
  | [ip] => if ip.isEmpty then none else (digitsToNat ip).map (fun n => (n : ℚ))
  | [ip, fp] =>
      if ip.isEmpty && fp.isEmpty then none
      else
        (digitsToNat ip).bind (fun i =>
          (digitsToNat fp).map (fun f => (i : ℚ) + (f : ℚ) / ((10 : ℚ) ^ fp.length)))
  | _ => none

/-- One cell put through `pd.to_numeric(·, errors='coerce')`: an optional sign
followed by an unsigned decimal literal; unparseable values give `none`. -/
def parseNum (s : String) : Option ℚ :=
  match s.toList with
  | [] => none
  | c :: rest =>
      if c = '-' then (parseUnsigned rest).map (fun q => -q)
      else if c = '+' then parseUnsigned rest
      else parseUnsigned (c :: rest)

/-- The numeric value of a cell after coercion: numbers stay themselves, and a
string cell parses or falls back to 0 (`errors='coerce'` plus `fillna(0)`). -/
def cellToNum (c : Cell) : ℚ :=
  match c with
  | .num q => q
  | .str s => (parseNum s).getD 0

/-- One numeric-column cell after lines 29-32 of `load_data`. -/
def coerceCell (c : Cell) : Cell := .num (cellToNum c)

/-- Lines 29-32 of `load_data` applied across one row: each cell that sits in
a designated numeric column is coerced, every other cell is untouched. -/
def fixRow : List String → List Cell → List Cell
  | _, [] => []
  | [], cs => cs
  | col :: cols, c :: cs =>
      (if col ∈ numeric_cols then coerceCell c else c) :: fixRow cols cs

/-- Lines 15-17, `save_data`: writes the full table to the backing store,
overwriting it. -/
def save_data (t : Table) : Table := t

/-- Lines 19-33, `load_data`.  The store is `none` when the backing file does
not exist: then an empty table with the given canonical columns is created and
also written to the store.  Otherwise the stored table is read and every cell
of a numeric column is coerced.  Returns (store after the call, loaded table). -/
def load_data (store : Option Table) (columns : List String) : Table × Table :=
  match store with
  | none => (⟨columns, []⟩, ⟨columns, []⟩)
  | some t => (t, ⟨t.cols, t.rows.map (fixRow t.cols)⟩)

/-- The canonical Attendance Ledger header (line 36). -/
def attendance_columns : List String :=
  ["Date", "Worker", "Role", "Wage", "Attendance", "Paid_Today", "Notes"]

/-- The cells of one attendance row, in the header's column order. -/
def attendanceRowCells (r : AttendanceRow) : List Cell :=
  [.str r.date, .str r.worker, .str r.role, .num r.wage, .num r.attendance,
    .num r.paid_today, .str r.notes]

/-- The Attendance Ledger as the table handed to `save_data`. -/
def attendanceTable (t : List AttendanceRow) : Table :=
  ⟨attendance_columns, t.map attendanceRowCells⟩

/-- The table persisted by the Bulk Attendance submit handler (line 106). -/
def bulkSavedTable (ledger : List AttendanceRow) (d : String) (selected : List String)
    (wage att : ℚ) : Table :=
  save_data (attendanceTable (bulkEntry ledger d selected wage att))

/-- The table persisted by the Single Entry save handler (line 142); when the
name is rejected no append happens and the ledger table is unchanged. -/
def singleSavedTable (ledger : List AttendanceRow) (d name : String)
    (wage att paid : ℚ) : Table :=
  save_data (attendanceTable (singleEntry ledger d name wage att paid).1)

/-! ### Helper lemmas -/

theorem mem_sortedKeys {l : List String} {w : String} : w ∈ sortedKeys l ↔ w ∈ l := by
  unfold sortedKeys
  rw [List.mem_mergeSort, List.mem_dedup]

theorem nodup_sortedKeys (l : List String) : (sortedKeys l).Nodup :=
  ((List.mergeSort_perm l.dedup (fun a b => decide (a ≤ b))).nodup_iff).mpr l.nodup_dedup

theorem mem_pendingDues_iff {t : List EarnedRow} {p : String × ℚ} :
    p ∈ pendingDuesByWorker t ↔
      p.1 ∈ t.map (fun r => r.worker) ∧ p.2 = balanceDue t p.1 ∧ (10 : ℚ) < p.2 := by
  unfold pendingDuesByWorker
  rw [List.mem_mergeSort, List.mem_filter]
  constructor
  · rintro ⟨hmem, h10⟩
    obtain ⟨w, hw, rfl⟩ := List.mem_map.1 hmem
    exact ⟨mem_sortedKeys.1 hw, rfl, of_decide_eq_true h10⟩
  · rintro ⟨hw, h2, h10⟩
    refine ⟨List.mem_map.2 ⟨p.1, mem_sortedKeys.2 hw, ?_⟩, decide_eq_true h10⟩
    cases p with
    | mk w q =>
        simp only at h2 ⊢
        rw [h2]

theorem pendingDues_pairwise (t : List EarnedRow) :
    (pendingDuesByWorker t).Pairwise (fun a b => b.2 ≤ a.2) := by
  have htrans : ∀ (a b c : String × ℚ),
      decide (b.2 ≤ a.2) = true → decide (c.2 ≤ b.2) = true →
      decide (c.2 ≤ a.2) = true := by
    intro a b c hab hbc
    simp only [decide_eq_true_eq] at hab hbc ⊢
    exact le_trans hbc hab
  have htotal : ∀ (a b : String × ℚ),
      (decide (b.2 ≤ a.2) || decide (a.2 ≤ b.2)) = true := by
    intro a b
    simp only [Bool.or_eq_true, decide_eq_true_eq]
    exact le_total b.2 a.2
  unfold pendingDuesByWorker
  exact (List.sorted_mergeSort htrans htotal _).imp (fun hab => of_decide_eq_true hab)

/-! ### Claims -/

/-- C2: after `computeEarned`, the derived `Earned` field of every row of the
Attendance Ledger equals `Wage × Attendance` exactly, with no rounding, for
all wage values and attendance codes. -/
theorem computeEarned_exact (t : List AttendanceRow) (r : EarnedRow)
    (hr : r ∈ computeEarned t) : r.earned = r.wage * r.attendance := by
  simp only [computeEarned, List.mem_map] at hr
  obtain ⟨a, _, rfl⟩ := hr
  rfl

unseal Rat.mul in
theorem computeEarned_exact_witness :
    (⟨⟨"2024-01-01", "Ram", "Labor", 600, 1, 200, "Single"⟩, 600⟩ : EarnedRow) ∈
      computeEarned [⟨"2024-01-01", "Ram", "Labor", 600, 1, 200, "Single"⟩] ∧
    (⟨⟨"2024-01-01", "Ram", "Labor", 600, 1, 200, "Single"⟩, 600⟩ : EarnedRow).earned =
      (⟨⟨"2024-01-01", "Ram", "Labor", 600, 1, 200, "Single"⟩, 600⟩ : EarnedRow).wage *
        (⟨⟨"2024-01-01", "Ram", "Labor", 600, 1, 200, "Single"⟩, 600⟩ : EarnedRow).attendance :=
  ⟨by decide,
    computeEarned_exact [⟨"2024-01-01", "Ram", "Labor", 600, 1, 200, "Single"⟩]
      ⟨⟨"2024-01-01", "Ram", "Labor", 600, 1, 200, "Single"⟩, 600⟩ (by decide)⟩

unseal Rat.add Rat.mul Rat.sub Rat.inv String.ltb List.merge List.mergeSort in
/-- C3: for every pair of ledgers `laborDue = totalEarned - totalPaid` (never
clamped) and `grandTotal = totalMaterial + totalPaid`; and on the ledger with
the single row Ram/600/1.0/200 with an empty Expense Ledger the dashboard
shows totalEarned 600, totalPaid 200, laborDue 400, pending dues [Ram ↦ 400],
grandTotal 200. -/
theorem dashboard_metrics_spec :
    (∀ (labor : List AttendanceRow) (e : List ExpenseRow),
        laborDue labor = totalEarned (computeEarned labor) - totalPaid labor ∧
        grandTotal e labor = totalMaterial e + totalPaid labor) ∧
    totalEarned (computeEarned [⟨"2024-01-01", "Ram", "Labor", 600, 1, 200, "Single"⟩]) = 600 ∧
    totalPaid [⟨"2024-01-01", "Ram", "Labor", 600, 1, 200, "Single"⟩] = 200 ∧
    laborDue [⟨"2024-01-01", "Ram", "Labor", 600, 1, 200, "Single"⟩] = 400 ∧
    pendingDuesByWorker (computeEarned [⟨"2024-01-01", "Ram", "Labor", 600, 1, 200, "Single"⟩]) =
      [("Ram", 400)] ∧
    grandTotal [] [⟨"2024-01-01", "Ram", "Labor", 600, 1, 200, "Single"⟩] = 200 := by
  refine ⟨fun labor e => ⟨rfl, rfl⟩, ?_, ?_, ?_, ?_, ?_⟩ <;> decide

/-- C1: `pendingDuesByWorker` groups the Attendance Ledger rows by the exact
worker string, sums Earned and Paid_Today independently per worker, sets
Balance_Due to their difference, keeps exactly the workers with Balance_Due
strictly greater than 10, and returns them sorted in descending order of
Balance_Due. -/
theorem pendingDues_spec (t : List EarnedRow) :
    (∀ p ∈ pendingDuesByWorker t,
        p.1 ∈ t.map (fun r => r.worker) ∧
        p.2 = sumEarnedFor t p.1 - sumPaidFor t p.1 ∧ (10 : ℚ) < p.2) ∧
    (∀ w ∈ t.map (fun r => r.worker),
        (10 : ℚ) < balanceDue t w → (w, balanceDue t w) ∈ pendingDuesByWorker t) ∧
    (pendingDuesByWorker t).Pairwise (fun a b => b.2 ≤ a.2) := by
  refine ⟨?_, ?_, pendingDues_pairwise t⟩
  · intro p hp
    obtain ⟨h1, h2, h3⟩ := mem_pendingDues_iff.1 hp
    exact ⟨h1, h2, h3⟩
  · intro w hw h10
    exact mem_pendingDues_iff.2 ⟨hw, rfl, h10⟩

unseal Rat.add Rat.mul Rat.sub Rat.inv in
theorem pendingDues_spec_witness :
    ("B", balanceDue (computeEarned
        [⟨"d", "A", "L", 10, 1, 0, ""⟩, ⟨"d", "B", "L", (1001/100 : ℚ), 1, 0, ""⟩]) "B") ∈
      pendingDuesByWorker (computeEarned
        [⟨"d", "A", "L", 10, 1, 0, ""⟩, ⟨"d", "B", "L", (1001/100 : ℚ), 1, 0, ""⟩]) ∧
    ("A", (10 : ℚ)) ∉ pendingDuesByWorker (computeEarned
        [⟨"d", "A", "L", 10, 1, 0, ""⟩, ⟨"d", "B", "L", (1001/100 : ℚ), 1, 0, ""⟩]) :=
  ⟨(pendingDues_spec (computeEarned
        [⟨"d", "A", "L", 10, 1, 0, ""⟩, ⟨"d", "B", "L", (1001/100 : ℚ), 1, 0, ""⟩])).2.1
      "B" (by decide) (by decide),
    fun hmem =>
      absurd ((pendingDues_spec (computeEarned
          [⟨"d", "A", "L", 10, 1, 0, ""⟩, ⟨"d", "B", "L", (1001/100 : ℚ), 1, 0, ""⟩])).1
        ("A", (10 : ℚ)) hmem).2.2 (by decide)⟩

/-- C4: `spendByCategory` groups the Expense Ledger by the exact category
string summing Cost per category, then appends one synthetic entry
"Labor Payments" carrying `totalPaid` of the Attendance Ledger; on an empty
Expense Ledger the result is exactly the one synthetic entry, which is 0 when
the Attendance Ledger is empty too. -/
theorem spendByCategory_spec (e : List ExpenseRow) (t : List AttendanceRow) :
    (∀ c ∈ e.map (fun r => r.category), (c, sumCostFor e c) ∈ spendByCategory e t) ∧
    (spendByCategory e t).getLast? = some ("Labor Payments", totalPaid t) ∧
    (∀ p ∈ spendByCategory e t,
        p = ("Labor Payments", totalPaid t) ∨
          (p.1 ∈ e.map (fun r => r.category) ∧ p.2 = sumCostFor e p.1)) ∧
    spendByCategory [] t = [("Labor Payments", totalPaid t)] ∧
    spendByCategory [] [] = [("Labor Payments", 0)] := by
  refine ⟨?_, ?_, ?_, ?_, ?_⟩
  · intro c hc
    exact List.mem_append_left _ (List.mem_map.2 ⟨c, mem_sortedKeys.2 hc, rfl⟩)
  · exact List.getLast?_concat _
  · intro p hp
    rcases List.mem_append.1 hp with hp | hp
    · obtain ⟨c, hc, rfl⟩ := List.mem_map.1 hp
      exact Or.inr ⟨mem_sortedKeys.1 hc, rfl⟩
    · exact Or.inl (List.mem_singleton.1 hp)
  · unfold spendByCategory sortedKeys
    simp [List.mergeSort_nil]
  · unfold spendByCategory sortedKeys totalPaid
    simp [List.mergeSort_nil]

unseal Rat.add Rat.mul Rat.sub Rat.inv in
theorem spendByCategory_spec_witness :
    ("Material", sumCostFor [⟨"d", "Cement", "Material", 100, ""⟩] "Material") ∈
      spendByCategory [⟨"d", "Cement", "Material", 100, ""⟩] [] ∧
    (spendByCategory [⟨"d", "Cement", "Material", 100, ""⟩] []).getLast? =
      some ("Labor Payments", totalPaid []) :=
  ⟨(spendByCategory_spec [⟨"d", "Cement", "Material", 100, ""⟩] []).1
      "Material" (by decide),
    (spendByCategory_spec [⟨"d", "Cement", "Material", 100, ""⟩] []).2.1⟩

/-- C10: when the Expense Ledger itself contains records in category
"Labor Payments", `spendByCategory` keeps two distinct entries under that
key — the grouped expense sum and the appended synthetic labor total — rather
than merging them. -/
theorem spendByCategory_duplicate_key (e : List ExpenseRow) (t : List AttendanceRow)
    (h : ∃ r ∈ e, r.category = "Labor Payments") :
    ((spendByCategory e t).map (fun p => p.1)).count "Labor Payments" = 2 ∧
    ("Labor Payments", sumCostFor e "Labor Payments") ∈ spendByCategory e t ∧
    (spendByCategory e t).getLast? = some ("Labor Payments", totalPaid t) := by
  obtain ⟨r, hr, hcat⟩ := h
  have hmem : "Labor Payments" ∈ e.map (fun r => r.category) :=
    List.mem_map.2 ⟨r, hr, hcat⟩
  refine ⟨?_, ?_, List.getLast?_concat _⟩
  · unfold spendByCategory
    rw [List.map_append, List.count_append, List.map_map]
    have hfst : ((fun p : String × ℚ => p.1) ∘ fun c => (c, sumCostFor e c)) =
        fun c => c := rfl
    rw [hfst, List.map_id']
    rw [List.count_eq_one_of_mem (nodup_sortedKeys _) (mem_sortedKeys.2 hmem)]
    rfl
  · exact List.mem_append_left _
      (List.mem_map.2 ⟨"Labor Payments", mem_sortedKeys.2 hmem, rfl⟩)

unseal Rat.add Rat.mul Rat.sub Rat.inv String.ltb List.merge List.mergeSort in
theorem spendByCategory_duplicate_key_witness :
    ((spendByCategory [⟨"d", "Refund", "Labor Payments", 7, ""⟩] []).map
        (fun p => p.1)).count "Labor Payments" = 2 :=
  (spendByCategory_duplicate_key [⟨"d", "Refund", "Labor Payments", 7, ""⟩] []
    ⟨⟨"d", "Refund", "Labor Payments", 7, ""⟩, by decide, by decide⟩).1

/-- C6: single-entry attendance intake rejects an empty worker name, creating
no record and leaving the Attendance Ledger unchanged; with a non-empty name
it appends exactly one record with Notes "Single". -/
theorem singleEntry_spec (ledger : List AttendanceRow) (d name : String)
    (wage att paid : ℚ) :
    (name = "" →
        singleEntry ledger d name wage att paid = (ledger, false) ∧
        (singleEntry ledger d name wage att paid).1.length = ledger.length) ∧
    (name ≠ "" →
        singleEntry ledger d name wage att paid =
          (ledger ++
            [{ date := d, worker := name, role := "Labor", wage := wage,
               attendance := att, paid_today := paid, notes := "Single" }], true) ∧
        (singleEntry ledger d name wage att paid).1.length = ledger.length + 1) := by
  constructor
  · intro h
    simp [singleEntry, h]
  · intro h
    simp [singleEntry, h]

theorem singleEntry_spec_witness :
    singleEntry [] "2024-01-01" "" 600 1 0 = ([], false) ∧
    singleEntry [] "2024-01-01" "Ram" 600 1 0 =
      ([{ date := "2024-01-01", worker := "Ram", role := "Labor", wage := 600,
          attendance := 1, paid_today := 0, notes := "Single" }], true) :=
  ⟨((singleEntry_spec [] "2024-01-01" "" 600 1 0).1 rfl).1,
    ((singleEntry_spec [] "2024-01-01" "Ram" 600 1 0).2 (by decide)).1⟩

unseal Rat.add Rat.mul Rat.sub Rat.inv in
/-- C7: bulk attendance intake appends exactly one record per selected worker,
all sharing the given date, wage and attendance code, each with Paid_Today 0
and Notes "Bulk"; with workers A and B at wage 500 and attendance 0.5 the two
new records each earn 250 after `computeEarned`. -/
theorem bulkEntry_spec (ledger : List AttendanceRow) (d : String)
    (selected : List String) (wage att : ℚ) :
    (bulkEntry ledger d selected wage att).length = ledger.length + selected.length ∧
    (∀ i w, selected[i]? = some w →
        (bulkEntry ledger d selected wage att)[ledger.length + i]? =
          some { date := d, worker := w, role := "Regular", wage := wage,
                 attendance := att, paid_today := 0, notes := "Bulk" }) ∧
    computeEarned (bulkEntry [] "2024-01-01" ["A", "B"] 500 (1/2 : ℚ)) =
      [⟨⟨"2024-01-01", "A", "Regular", 500, (1/2 : ℚ), 0, "Bulk"⟩, 250⟩,
        ⟨⟨"2024-01-01", "B", "Regular", 500, (1/2 : ℚ), 0, "Bulk"⟩, 250⟩] := by
  refine ⟨?_, ?_, by decide⟩
  · simp [bulkEntry]
  · intro i w hi
    rw [bulkEntry, List.getElem?_append_right (Nat.le_add_right _ _)]
    simp [hi]

/-- C9: every operation that persists the Attendance Ledger — the bulk append
and the single append — writes a table with the canonical attendance header,
which does not contain an `Earned` column; the derived column lives only in
the read-only Dashboard computation. -/
theorem earned_never_persisted (ledger : List AttendanceRow) (d name : String)
    (selected : List String) (wage att paid : ℚ) :
    (bulkSavedTable ledger d selected wage att).cols = attendance_columns ∧
    (singleSavedTable ledger d name wage att paid).cols = attendance_columns ∧
    "Earned" ∉ attendance_columns :=
  ⟨rfl, rfl, by decide⟩

unseal Rat.add Rat.mul Rat.sub Rat.inv in
theorem bulkEntry_spec_witness :
    (bulkEntry [] "2024-01-01" ["A", "B"] 500 (1/2 : ℚ)).length =
      ([] : List AttendanceRow).length + ["A", "B"].length ∧
    (bulkEntry [] "2024-01-01" ["A", "B"] 500 (1/2 : ℚ))[([] : List AttendanceRow).length + 1]? =
      some { date := "2024-01-01", worker := "B", role := "Regular", wage := 500,
             attendance := (1/2 : ℚ), paid_today := 0, notes := "Bulk" } :=
  ⟨(bulkEntry_spec [] "2024-01-01" ["A", "B"] 500 (1/2 : ℚ)).1,
    (bulkEntry_spec [] "2024-01-01" ["A", "B"] 500 (1/2 : ℚ)).2.1 1 "B" rfl⟩

theorem fixRow_length (cols : List String) (row : List Cell) :
    (fixRow cols row).length = row.length := by
  induction row generalizing cols with
  | nil => cases cols <;> rfl
  | cons c cs ih =>
      cases cols with
      | nil => rfl
      | cons col cols => simp [fixRow, ih]

theorem fixRow_getElem? (cols : List String) (row : List Cell) (j : ℕ) (col : String)
    (hcol : cols[j]? = some col) :
    (fixRow cols row)[j]? =
      (row[j]?).map (fun c => if col ∈ numeric_cols then coerceCell c else c) := by
  induction cols generalizing row j with
  | nil => simp at hcol
  | cons c0 cols ih =>
      cases row with
      | nil => simp [fixRow]
      | cons x xs =>
          cases j with
          | zero =>
              simp only [List.getElem?_cons_zero, Option.some.injEq] at hcol
              subst hcol
              simp [fixRow]
          | succ j =>
              simp only [List.getElem?_cons_succ] at hcol
              simp [fixRow, ih xs j hcol]

/-- C5: `load_data` on a missing store creates an empty store with the
canonical columns and returns the empty table; on an existing store it returns
every stored row (same row count, rows coerced pointwise), replaces each
unparseable cell of a designated numeric column by 0 independently of the
other cells of its row, and leaves non-numeric columns untouched. -/
theorem load_data_spec (columns : List String) (t : Table) :
    load_data none columns = (⟨columns, []⟩, ⟨columns, []⟩) ∧
    (load_data (some t) columns).2.cols = t.cols ∧
    (load_data (some t) columns).2.rows.length = t.rows.length ∧
    (∀ (i : ℕ), ((load_data (some t) columns).2.rows)[i]? = (t.rows[i]?).map (fixRow t.cols)) ∧
    (∀ row ∈ t.rows, (fixRow t.cols row).length = row.length) ∧
    (∀ (row : List Cell) (j : ℕ) (col : String), t.cols[j]? = some col → col ∉ numeric_cols →
        (fixRow t.cols row)[j]? = row[j]?) ∧
    (∀ (row : List Cell) (j : ℕ) (col : String) (c : Cell), t.cols[j]? = some col → col ∈ numeric_cols →
        row[j]? = some c → (fixRow t.cols row)[j]? = some (Cell.num (cellToNum c))) ∧
    (∀ s, parseNum s = none → cellToNum (Cell.str s) = 0) := by
  refine ⟨rfl, rfl, ?_, ?_, ?_, ?_, ?_, ?_⟩
  · simp [load_data]
  · intro i
    simp [load_data, List.getElem?_map]
  · intro row _
    exact fixRow_length t.cols row
  · intro row j col hcol hnotnum
    rw [fixRow_getElem? t.cols row j col hcol]
    simp [hnotnum]
  · intro row j col c hcol hnum hcell
    rw [fixRow_getElem? t.cols row j col hcol, hcell]
    simp [hnum, coerceCell]
  · intro s hs
    simp [cellToNum, hs]

theorem load_data_spec_witness :
    (fixRow ["Worker", "Wage"] [Cell.str "Ram", Cell.str "abc"])[1]? =
      some (Cell.num (cellToNum (Cell.str "abc"))) ∧
    (fixRow ["Worker", "Wage"] [Cell.str "Ram", Cell.str "abc"])[0]? =
      some (Cell.str "Ram") ∧
    cellToNum (Cell.str "abc") = 0 :=
  ⟨(load_data_spec ["Date"]
        ⟨["Worker", "Wage"], [[Cell.str "Ram", Cell.str "abc"]]⟩).2.2.2.2.2.2.1
      [Cell.str "Ram", Cell.str "abc"] 1 "Wage" (Cell.str "abc") rfl (by decide) rfl,
    (load_data_spec ["Date"]
        ⟨["Worker", "Wage"], [[Cell.str "Ram", Cell.str "abc"]]⟩).2.2.2.2.2.1
      [Cell.str "Ram", Cell.str "abc"] 0 "Worker" rfl (by decide),
    (load_data_spec ["Date"]
        ⟨["Worker", "Wage"], [[Cell.str "Ram", Cell.str "abc"]]⟩).2.2.2.2.2.2.2
      "abc" rfl⟩

/-- C8: persisting a table and loading it back yields a table with the same
column list and the same rows, except that every cell of a designated numeric
column is put through the numeric coercion, which is the identity on the
numeric value of every cell that was not corrupt and sends an unparseable
cell to 0. -/
theorem persist_load_roundtrip (t : Table) :
    (load_data (some (save_data t)) t.cols).2.cols = t.cols ∧
    (load_data (some (save_data t)) t.cols).2.rows.length = t.rows.length ∧
    (∀ (i j : ℕ) (col : String) (c : Cell), t.cols[j]? = some col →
        (t.rows[i]?.bind (fun row => row[j]?)) = some c →
        ((load_data (some (save_data t)) t.cols).2.rows[i]?.bind (fun row => row[j]?)) =
          some (if col ∈ numeric_cols then Cell.num (cellToNum c) else c)) ∧
    (∀ q, cellToNum (Cell.num q) = q) ∧
    (∀ s q, parseNum s = some q → cellToNum (Cell.str s) = q) ∧
    (∀ s, parseNum s = none → cellToNum (Cell.str s) = 0) := by
  refine ⟨rfl, by simp [load_data, save_data], ?_, fun q => rfl, ?_, ?_⟩
  · intro i j col c hcol hcell
    obtain ⟨row, hrow, hc⟩ := Option.bind_eq_some.1 hcell
    simp only [load_data, save_data, List.getElem?_map, hrow, Option.map_some',
      Option.some_bind]
    rw [fixRow_getElem? t.cols row j col hcol, hc]
    simp [coerceCell]
  · intro s q hs
    simp [cellToNum, hs]
  · intro s hs
    simp [cellToNum, hs]

theorem persist_load_roundtrip_witness :
    ((load_data (some (save_data
          ⟨["Worker", "Wage"],
            [[Cell.str "Ram", Cell.num 600], [Cell.str "Shyam", Cell.str "oops"]]⟩))
        ["Worker", "Wage"]).2.rows[0]?.bind (fun row => row[1]?)) =
      some (Cell.num 600) ∧
    ((load_data (some (save_data
          ⟨["Worker", "Wage"],
            [[Cell.str "Ram", Cell.num 600], [Cell.str "Shyam", Cell.str "oops"]]⟩))
        ["Worker", "Wage"]).2.rows[1]?.bind (fun row => row[1]?)) =
      some (Cell.num 0) ∧
    ((load_data (some (save_data
          ⟨["Worker", "Wage"],
            [[Cell.str "Ram", Cell.num 600], [Cell.str "Shyam", Cell.str "oops"]]⟩))
        ["Worker", "Wage"]).2.rows[0]?.bind (fun row => row[0]?)) =
      some (Cell.str "Ram") :=
  ⟨(persist_load_roundtrip
        ⟨["Worker", "Wage"],
          [[Cell.str "Ram", Cell.num 600], [Cell.str "Shyam", Cell.str "oops"]]⟩).2.2.1
      0 1 "Wage" (Cell.num 600) rfl rfl,
    (persist_load_roundtrip
        ⟨["Worker", "Wage"],
          [[Cell.str "Ram", Cell.num 600], [Cell.str "Shyam", Cell.str "oops"]]⟩).2.2.1
      1 1 "Wage" (Cell.str "oops") rfl rfl,
    (persist_load_roundtrip
        ⟨["Worker", "Wage"],
          [[Cell.str "Ram", Cell.num 600], [Cell.str "Shyam", Cell.str "oops"]]⟩).2.2.1
      0 0 "Worker" (Cell.str "Ram") rfl rfl⟩

end SiteManager
